import Mathlib

/-!
Shallow embedding of the DNS-result ingestion pipeline implemented by
`DataManagerService` in `services/datamgmtsrv.go` (OWASP Amass).

External collaborators (the event bus, the graph-database sinks, the
public-suffix library, the scope/configuration authority and the two
regular expressions used by the text miner) are modelled as parameters of
an `Env` record; the pipeline itself is translated function by function
from the Go source.  Side effects (bus publications and sink inserts) are
reified as an explicit list of `Effect` values, in emission order.
-/

/-- ASCII lower-casing of one character, the restriction of Go's
`unicode.ToLower` (used by `strings.ToLower`) to the ASCII range. -/
def lowerChar (c : Char) : Char :=
  if h : 65 ≤ c.toNat ∧ c.toNat ≤ 90 then
    ⟨UInt32.ofNat (c.toNat + 32), by
      refine Or.inl ?_
      show (UInt32.ofNat (c.toNat + 32)).toNat < 55296
      have h2 : (UInt32.ofNat (c.toNat + 32)).toNat = (c.toNat + 32) % UInt32.size := rfl
      rw [h2]
      have h3 : (c.toNat + 32) % UInt32.size = c.toNat + 32 :=
        Nat.mod_eq_of_lt (by simp [UInt32.size]; omega)
      omega⟩
  else c

/-- Translation of Go `strings.ToLower` (ASCII fragment). -/
def strLower (s : String) : String :=
  ⟨s.data.map lowerChar⟩

/-- Dot test used by `strings.Trim(s, ".")`. -/
def isDot (c : Char) : Bool :=
  c = '.'

/-- Translation of Go `strings.Trim(s, ".")`: remove every leading and
trailing `.` character. -/
def trimDots (s : String) : String :=
  ⟨((s.data.dropWhile isDot).reverse.dropWhile isDot).reverse⟩

/-- Record-field normalization applied by `processDNSRequest`:
`strings.Trim(strings.ToLower(x), ".")`. -/
def normStr (s : String) : String :=
  trimDots (strLower s)

/-- Whitespace test for `strings.TrimSpace` (common ASCII space characters). -/
def isSpace (c : Char) : Bool :=
  c = ' ' ∨ c = '\t' ∨ c = '\n' ∨ c = '\r'

/-- Translation of Go `strings.TrimSpace` (ASCII fragment). -/
def trimSpace (s : String) : String :=
  ⟨((s.data.dropWhile isSpace).reverse.dropWhile isSpace).reverse⟩

/-- Modelled from the spec: `resolvers.RemoveLastDot` (package
`resolvers`, not part of this excerpt) strips one trailing-dot suffix
from a DNS name, per the spec's Normalizer description. -/
def removeLastDot (s : String) : String :=
  if s.data.getLast? = some '.' then ⟨s.data.dropLast⟩ else s

/-- Helper for `splitComma`: accumulate the current field in reverse. -/
def splitCommaAux : List Char → List Char → List (List Char)
  | [], acc => [acc.reverse]
  | c :: cs, acc =>
    if c = ',' then acc.reverse :: splitCommaAux cs []
    else splitCommaAux cs (c :: acc)

/-- Translation of Go `strings.Split(s, ",")` as used by the NS handler:
split on every comma, keeping empty fields; never returns an empty list. -/
def splitComma (s : String) : List String :=
  (splitCommaAux s.data []).map fun l => ⟨l⟩

/-- DNS resource-record type codes used by the dispatcher
(`miekg/dns` constants). -/
def typeA : Nat := 1

/-- NS record type code. -/
def typeNS : Nat := 2

/-- CNAME record type code. -/
def typeCNAME : Nat := 5

/-- PTR record type code. -/
def typePTR : Nat := 12

/-- MX record type code. -/
def typeMX : Nat := 15

/-- TXT record type code. -/
def typeTXT : Nat := 16

/-- AAAA record type code. -/
def typeAAAA : Nat := 28

/-- SRV record type code. -/
def typeSRV : Nat := 33

/-- SPF record type code. -/
def typeSPF : Nat := 99

/-- Tag constant `requests.DNS` attached to re-published discovery events. -/
def tagDNS : String := "dns"

/-- One DNS resource record (`requests.DNSRequest.Records` element). -/
structure Record where
  name : String
  type : Nat
  data : String
deriving DecidableEq

/-- Placeholder record returned by out-of-range index access; every access
performed by the pipeline is in bounds. -/
def emptyRecord : Record :=
  { name := "", type := 0, data := "" }

/-- One resolved query (`requests.DNSRequest`). -/
structure DNSRequest where
  name : String
  domain : String
  tag : String
  source : String
  records : List Record
deriving DecidableEq

/-- One ASN / infrastructure fact (`requests.ASNRequest`). -/
structure ASNRequest where
  asn : Nat
  description : String
  address : String
  prefixVal : String
  source : String
  tag : String
deriving DecidableEq

/-- One configured graph-database sink; `fails` models whether its insert
calls return an error. -/
structure Sink where
  id : String
  fails : Bool
deriving DecidableEq

/-- Environment: the external collaborators of the pipeline.  `hasCfg` and
`hasBus` record the outcome of the entry points' context type assertions
when the key is present: whether the pointer obtained for the config /
event-bus key is live (`true`) or a typed nil (`false`).  Genuine absence
of the key from the context makes the Go assertion panic before either
flag is ever tested; that path is modelled separately by `CtxVal` and
`assertCtx` below.  `etldPlusOne` models
`publicsuffix.EffectiveTLDPlusOne` (with `none` for an error);
`whichDomain` and `isDomainInScope` model the scope authority;
`ipMatches` and `subMatches` model the two regular expressions of the
text miner. -/
structure Env where
  hasCfg : Bool
  hasBus : Bool
  uuid : String
  whichDomain : String → String
  isDomainInScope : String → Bool
  etldPlusOne : String → Option String
  ipMatches : String → List String
  subMatches : String → List String
  sinks : List Sink

/-- Observable side effects of the pipeline, in emission order. -/
inductive Effect where
  | insert (sink : String) (kind : String) (args : List String)
  | nameEvent (name : String) (domain : String) (tag : String) (source : String)
  | addrEvent (address : String) (domain : String) (tag : String) (source : String)
  | logMsg (msg : String)
  | heartbeat
  | invoke (handler : String) (idx : Nat)
deriving DecidableEq

/-- Sink fan-out loop shared by every handler: call the typed insert on
every configured sink; a sink whose insert errors additionally publishes
one log message; no failure stops the loop. -/
def sinkWrites (env : Env) (kind : String) (args : List String) (msg : String) : List Effect :=
  env.sinks.flatMap fun g =>
    Effect.insert g.id kind args ::
      (if g.fails then [Effect.logMsg (g.id ++ " " ++ msg)] else [])

/-- Translation of `insertCNAME` (datamgmtsrv.go:146): require config and
bus; take the record data minus one trailing dot as target; require a
derivable, non-empty, lower-cased registrable domain; write the CNAME fact
to every sink; always re-publish the target on the new-name topic; then
heartbeat. -/
def insertCNAME (env : Env) (req : DNSRequest) (recidx : Nat) : List Effect :=
  if env.hasCfg ∧ env.hasBus then
    let target := removeLastDot (req.records.getD recidx emptyRecord).data
    if target = "" then []
    else
      match env.etldPlusOne target with
      | none => []
      | some d =>
        let domain := strLower d
        if domain = "" then []
        else
          sinkWrites env "CNAME" [req.name, target, req.source, req.tag, env.uuid]
              "failed to insert CNAME"
            ++ [Effect.nameEvent target domain tagDNS "DNS", Effect.heartbeat]
  else []

/-- Translation of `insertA` (datamgmtsrv.go:186): require config and bus;
trim the address; require it non-empty; write the A fact to every sink;
publish the address on the new-address topic; heartbeat. -/
def insertA (env : Env) (req : DNSRequest) (recidx : Nat) : List Effect :=
  if env.hasCfg ∧ env.hasBus then
    let addr := trimSpace (req.records.getD recidx emptyRecord).data
    if addr = "" then []
    else
      sinkWrites env "A" [req.name, addr, req.source, req.tag, env.uuid]
          "failed to insert A record"
        ++ [Effect.addrEvent addr req.domain req.tag req.source, Effect.heartbeat]
  else []

/-- Translation of `insertAAAA` (datamgmtsrv.go:215), identical to the A
handler except for the fact type. -/
def insertAAAA (env : Env) (req : DNSRequest) (recidx : Nat) : List Effect :=
  if env.hasCfg ∧ env.hasBus then
    let addr := trimSpace (req.records.getD recidx emptyRecord).data
    if addr = "" then []
    else
      sinkWrites env "AAAA" [req.name, addr, req.source, req.tag, env.uuid]
          "failed to insert AAAA record"
        ++ [Effect.addrEvent addr req.domain req.tag req.source, Effect.heartbeat]
  else []

/-- Translation of `insertPTR` (datamgmtsrv.go:244): require config and
bus; target non-empty; the scope authority must place the target in scope
(`cfg.WhichDomain` non-empty) or the handler returns before any write;
otherwise write the PTR fact to every sink, publish the target on the
new-name topic and heartbeat. -/
def insertPTR (env : Env) (req : DNSRequest) (recidx : Nat) : List Effect :=
  if env.hasCfg ∧ env.hasBus then
    let target := removeLastDot (req.records.getD recidx emptyRecord).data
    if target = "" then []
    else
      let domain := strLower (env.whichDomain target)
      if domain = "" then []
      else
        sinkWrites env "PTR" [req.name, target, req.source, req.tag, env.uuid]
            "failed to insert PTR record"
          ++ [Effect.nameEvent target domain tagDNS req.source, Effect.heartbeat]
  else []

/-- Translation of `insertSRV` (datamgmtsrv.go:279): require config and
bus; service (record name) and target (record data) non-empty; write the
SRV fact to every sink; publish the target on the new-name topic only when
the scope authority returns a non-empty domain for it; heartbeat. -/
def insertSRV (env : Env) (req : DNSRequest) (recidx : Nat) : List Effect :=
  if env.hasCfg ∧ env.hasBus then
    let service := removeLastDot (req.records.getD recidx emptyRecord).name
    let target := removeLastDot (req.records.getD recidx emptyRecord).data
    if target = "" ∨ service = "" then []
    else
      sinkWrites env "SRV" [req.name, service, target, req.source, req.tag, env.uuid]
          "failed to insert SRV record"
        ++ (if env.whichDomain target ≠ "" then
              [Effect.nameEvent target (env.whichDomain target) req.tag req.source]
            else [])
        ++ [Effect.heartbeat]
  else []

/-- Translation of `insertNS` (datamgmtsrv.go:311): require config and
bus; split the record data on `,` and take the last piece as target;
require a derivable, non-empty, lower-cased registrable domain; write the
NS fact to every sink; publish the target on the new-name topic only when
it differs from its registrable domain; heartbeat. -/
def insertNS (env : Env) (req : DNSRequest) (recidx : Nat) : List Effect :=
  if env.hasCfg ∧ env.hasBus then
    let target := (splitComma (req.records.getD recidx emptyRecord).data).getLastD ""
    if target = "" then []
    else
      match env.etldPlusOne target with
      | none => []
      | some d =>
        let domain := strLower d
        if domain = "" then []
        else
          sinkWrites env "NS" [req.name, target, req.source, req.tag, env.uuid]
              "failed to insert NS record"
            ++ (if target ≠ domain then
                  [Effect.nameEvent target domain tagDNS "DNS"]
                else [])
            ++ [Effect.heartbeat]
  else []

/-- Translation of `insertMX` (datamgmtsrv.go:353): like the CNAME handler
up to domain derivation, but the new-name publication happens only when
the target differs from its registrable domain. -/
def insertMX (env : Env) (req : DNSRequest) (recidx : Nat) : List Effect :=
  if env.hasCfg ∧ env.hasBus then
    let target := removeLastDot (req.records.getD recidx emptyRecord).data
    if target = "" then []
    else
      match env.etldPlusOne target with
      | none => []
      | some d =>
        let domain := strLower d
        if domain = "" then []
        else
          sinkWrites env "MX" [req.name, target, req.source, req.tag, env.uuid]
              "failed to insert MX record"
            ++ (if target ≠ domain then
                  [Effect.nameEvent target domain tagDNS "DNS"]
                else [])
            ++ [Effect.heartbeat]
  else []

/-- Translation of `findNamesAndAddresses` (datamgmtsrv.go:420): require
config and bus; publish one new-address event per IPv4 match; for every
subdomain-shaped match that is in scope and has a non-empty registrable
domain per the scope authority, publish one new-name event; heartbeat. -/
def findNamesAndAddresses (env : Env) (data : String) (domain : String) : List Effect :=
  if env.hasCfg ∧ env.hasBus then
    (env.ipMatches data).map
        (fun ip => Effect.addrEvent ip domain tagDNS "DNS")
      ++ (env.subMatches data).flatMap (fun n =>
          if env.isDomainInScope n then
            let d := strLower (env.whichDomain n)
            if d = "" then [] else [Effect.nameEvent n d tagDNS "DNS"]
          else [])
      ++ [Effect.heartbeat]
  else []

/-- Translation of `insertTXT` (datamgmtsrv.go:394): require config; the
query name must be in scope; delegate the record data and the query's
domain to the text miner. -/
def insertTXT (env : Env) (req : DNSRequest) (recidx : Nat) : List Effect :=
  if env.hasCfg then
    if env.isDomainInScope req.name then
      findNamesAndAddresses env (req.records.getD recidx emptyRecord).data req.domain
    else []
  else []

/-- Translation of `insertSPF` (datamgmtsrv.go:407): require config; the
query name must be in scope; delegate the record data and the query's
domain to the text miner. -/
def insertSPF (env : Env) (req : DNSRequest) (recidx : Nat) : List Effect :=
  if env.hasCfg then
    if env.isDomainInScope req.name then
      findNamesAndAddresses env (req.records.getD recidx emptyRecord).data req.domain
    else []
  else []

/-- Translation of the type switch in the second loop of
`processDNSRequest` (datamgmtsrv.go:100): route one record to its
type-specific handler; unsupported types fall through silently.  The
`invoke` marker records the handler invocation itself. -/
def dispatchRecord (env : Env) (req : DNSRequest) (i : Nat) : List Effect :=
  let t := (req.records.getD i emptyRecord).type
  if t = typeA then Effect.invoke "A" i :: insertA env req i
  else if t = typeAAAA then Effect.invoke "AAAA" i :: insertAAAA env req i
  else if t = typePTR then Effect.invoke "PTR" i :: insertPTR env req i
  else if t = typeSRV then Effect.invoke "SRV" i :: insertSRV env req i
  else if t = typeNS then Effect.invoke "NS" i :: insertNS env req i
  else if t = typeMX then Effect.invoke "MX" i :: insertMX env req i
  else if t = typeTXT then Effect.invoke "TXT" i :: insertTXT env req i
  else if t = typeSPF then Effect.invoke "SPF" i :: insertSPF env req i
  else []

/-- Translation of the first loop of `processDNSRequest`
(datamgmtsrv.go:86): normalize records in place, front to back, stopping
at the first CNAME record.  Returns the record list as left by the loop
together with the index of the first CNAME record, if any; records after
that index are left untouched, exactly as in the source. -/
def scanCNAME : List Record → List Record × Option Nat
  | [] => ([], none)
  | r :: rest =>
    let r2 : Record := { r with name := normStr r.name, data := normStr r.data }
    if r.type = typeCNAME then (r2 :: rest, some 0)
    else
      let p := scanCNAME rest
      (r2 :: p.1, p.2.map (· + 1))

/-- Translation of the second loop of `processDNSRequest`
(datamgmtsrv.go:97): heartbeat, then dispatch, for each record in input
order; `i` is the index of the first record of `rs` within the request. -/
def dispatchAll (env : Env) (req : DNSRequest) : Nat → List Record → List Effect
  | _, [] => []
  | i, _ :: rest =>
    (Effect.heartbeat :: dispatchRecord env req i) ++ dispatchAll env req (i + 1) rest

/-- Translation of `processDNSRequest` (datamgmtsrv.go:76): require the
bus; heartbeat; normalize-and-scan for a CNAME record, handling only that
record when one exists; otherwise dispatch every record in input order. -/
def processDNSRequest (env : Env) (req : DNSRequest) : List Effect :=
  if env.hasBus then
    let p := scanCNAME req.records
    let req2 : DNSRequest := { req with records := p.1 }
    Effect.heartbeat ::
      match p.2 with
      | some i => Effect.invoke "CNAME" i :: insertCNAME env req2 i
      | none => dispatchAll env req2 0 p.1
  else []

/-- Backoff table of the admission controller
(datamgmtsrv.go:49): `delays = [25, 50, 75, 100, 150, 250, 500]`. -/
def delays : List Nat := [25, 50, 75, 100, 150, 250, 500]

/-- Index bump after one failed acquisition (datamgmtsrv.go:63): the
delay index saturates at `maxIdx = 6`. -/
def nextIdx (curIdx : Nat) : Nat :=
  if curIdx < 6 then curIdx + 1 else curIdx

/-- Translation of the acquisition loop of `OnDNSRequest`
(datamgmtsrv.go:54) restricted to its default branch, driven by a
schedule of `TryAcquire` outcomes.  Returns the sleep delays performed,
the value of `curIdx` when the loop ends, and whether a slot was
acquired; on success `curIdx` is reset to 0 (datamgmtsrv.go:69). -/
def acquireLoop : List Bool → Nat → List Nat × Nat × Bool
  | [], curIdx => ([], curIdx, false)
  | b :: bs, curIdx =>
    if b then ([], 0, true)
    else
      let p := acquireLoop bs (nextIdx curIdx)
      (delays.getD curIdx 0 :: p.1, p.2)

/-- Translation of `OnDNSRequest` (datamgmtsrv.go:41): require the bus,
then run the admission loop; when a slot is acquired the admitted task is
`processDNSRequest`. -/
def onDNSRequest (env : Env) (sched : List Bool) (req : DNSRequest) : List Effect :=
  if env.hasBus then
    if (acquireLoop sched 0).2.2 then processDNSRequest env req else []
  else []

/-- Translation of `OnASNRequest` (datamgmtsrv.go:122): require address,
prefix and description non-empty; require config and bus; write the
infrastructure fact to every sink; heartbeat.  No follow-up events. -/
def onASNRequest (env : Env) (req : ASNRequest) : List Effect :=
  if req.address = "" ∨ req.prefixVal = "" ∨ req.description = "" then []
  else if env.hasCfg ∧ env.hasBus then
    sinkWrites env "Infrastructure"
        [toString req.asn, req.description, req.address, req.prefixVal,
          req.source, req.tag, env.uuid]
        "failed to insert infrastructure data"
      ++ [Effect.heartbeat]
  else []

/-! Character and string normalization lemmas. -/

/-- Value of `lowerChar` on the codepoint level. -/
theorem lowerChar_toNat (c : Char) :
    (lowerChar c).toNat = if 65 ≤ c.toNat ∧ c.toNat ≤ 90 then c.toNat + 32 else c.toNat := by
  unfold lowerChar
  split
  · show (UInt32.ofNat (c.toNat + 32)).toNat = _
    next h =>
      have h2 : (UInt32.ofNat (c.toNat + 32)).toNat = (c.toNat + 32) % UInt32.size := rfl
      rw [h2]
      exact Nat.mod_eq_of_lt (by simp [UInt32.size]; omega)
  · rfl

/-- Characters with equal codepoints are equal. -/
theorem char_toNat_inj {a b : Char} (h : a.toNat = b.toNat) : a = b :=
  Char.ext (UInt32.ext h)

/-- Lower-casing a character twice is the same as once. -/
theorem lowerChar_idem (c : Char) : lowerChar (lowerChar c) = lowerChar c := by
  by_cases h : 65 ≤ c.toNat ∧ c.toNat ≤ 90
  · have ht : (lowerChar c).toNat = c.toNat + 32 := by rw [lowerChar_toNat, if_pos h]
    rw [lowerChar, dif_neg (by omega)]
  · have hc : lowerChar c = c := by rw [lowerChar, dif_neg h]
    rw [hc, hc]

/-- Dot test through the codepoint. -/
theorem isDot_eq_toNat (c : Char) : isDot c = decide (c.toNat = 46) := by
  unfold isDot
  rw [decide_eq_decide]
  constructor
  · intro h; rw [h]; rfl
  · intro h; exact char_toNat_inj (by rw [h]; rfl)

/-- Lower-casing never creates or destroys a dot. -/
theorem isDot_lowerChar (c : Char) : isDot (lowerChar c) = isDot c := by
  rw [isDot_eq_toNat, isDot_eq_toNat, lowerChar_toNat]
  by_cases h : 65 ≤ c.toNat ∧ c.toNat ≤ 90
  · rw [if_pos h]
    rw [decide_eq_decide]
    omega
  · rw [if_neg h]

/-- Head of a `dropWhile` result never satisfies the predicate. -/
theorem head_dropWhile_false {α : Type} (p : α → Bool) (l : List α) {c : α}
    (h : (l.dropWhile p).head? = some c) : p c = false := by
  have := List.head?_dropWhile_not p l
  rw [h] at this
  exact this

/-- A `dropWhile` whose head does not satisfy the predicate is a no-op. -/
theorem dropWhile_noop {α : Type} (p : α → Bool) (l : List α)
    (h : ∀ c, l.head? = some c → p c = false) : l.dropWhile p = l := by
  cases l with
  | nil => rfl
  | cons a as =>
    rw [List.dropWhile_cons, if_neg]
    simp [h a rfl]

/-- Nonempty `dropWhile` results keep the last element of the input. -/
theorem getLast?_dropWhile {α : Type} (p : α → Bool) (l : List α)
    (h : l.dropWhile p ≠ []) : (l.dropWhile p).getLast? = l.getLast? := by
  obtain ⟨t, ht⟩ := List.dropWhile_suffix p (l := l)
  conv_rhs => rw [← ht]
  rw [List.getLast?_append]
  cases hd : (l.dropWhile p).getLast? with
  | none => exact absurd (List.getLast?_eq_none_iff.mp hd) h
  | some c => rfl

/-- Members of a `dropWhile` result are members of the input. -/
theorem mem_dropWhile {α : Type} {p : α → Bool} {l : List α} {c : α}
    (h : c ∈ l.dropWhile p) : c ∈ l :=
  (List.dropWhile_suffix p).subset h

/-- Head of a trimmed string is never a dot. -/
theorem trimDots_head (s : String) : (trimDots s).data.head? ≠ some '.' := by
  intro h
  unfold trimDots at h
  rw [List.head?_reverse] at h
  have h2 := getLast?_dropWhile isDot (s.data.dropWhile isDot).reverse
    (by intro he; rw [he] at h; exact Option.noConfusion h)
  rw [h2, List.getLast?_reverse] at h
  have := head_dropWhile_false isDot s.data h
  simp [isDot] at this

/-- Last character of a trimmed string is never a dot. -/
theorem trimDots_last (s : String) : (trimDots s).data.getLast? ≠ some '.' := by
  intro h
  unfold trimDots at h
  rw [List.getLast?_reverse] at h
  have := head_dropWhile_false isDot (s.data.dropWhile isDot).reverse h
  simp [isDot] at this

/-- Trimming a string without edge dots is a no-op. -/
theorem trimDots_noop (s : String) (h1 : s.data.head? ≠ some '.')
    (h2 : s.data.getLast? ≠ some '.') : trimDots s = s := by
  unfold trimDots
  rw [dropWhile_noop isDot s.data, dropWhile_noop isDot s.data.reverse]
  · cases s with
    | mk l => simp
  · intro c hc
    rw [List.head?_reverse] at hc
    simp only [isDot, decide_eq_false_iff_not]
    intro he
    exact h2 (by rw [hc, he])
  · intro c hc
    simp only [isDot, decide_eq_false_iff_not]
    intro he
    exact h1 (by rw [hc, he])

/-- Every character of a lower-cased string is fixed by `lowerChar`. -/
theorem mem_strLower_fixed {s : String} {c : Char} (h : c ∈ (strLower s).data) :
    lowerChar c = c := by
  unfold strLower at h
  simp only [List.mem_map] at h
  obtain ⟨a, _, ha⟩ := h
  rw [← ha]
  exact lowerChar_idem a

/-- Mapping a function that fixes every member is the identity. -/
theorem map_fixed {α : Type} (f : α → α) :
    ∀ (l : List α), (∀ c ∈ l, f c = c) → l.map f = l
  | [], _ => rfl
  | a :: as, h => by
    rw [List.map_cons, h a (List.mem_cons_self a as),
      map_fixed f as (fun c hc => h c (List.mem_cons_of_mem a hc))]

/-- Characters of a trimmed string are characters of the original. -/
theorem mem_trimDots {s : String} {c : Char} (h : c ∈ (trimDots s).data) :
    c ∈ s.data := by
  unfold trimDots at h
  rw [List.mem_reverse] at h
  have h2 := mem_dropWhile h
  rw [List.mem_reverse] at h2
  exact mem_dropWhile h2

/-- Lower-casing an already-normalized string is a no-op. -/
theorem strLower_normStr (s : String) : strLower (normStr s) = normStr s := by
  unfold strLower
  rw [map_fixed lowerChar (normStr s).data
    (fun c hc => mem_strLower_fixed (mem_trimDots hc))]

/-- Trimming an already-normalized string is a no-op. -/
theorem trimDots_normStr (s : String) : trimDots (normStr s) = normStr s :=
  trimDots_noop (normStr s) (trimDots_head (strLower s)) (trimDots_last (strLower s))

/-- Normalization of one string field is idempotent. -/
theorem normStr_idem (s : String) : normStr (normStr s) = normStr s := by
  show trimDots (strLower (normStr s)) = normStr s
  rw [strLower_normStr, trimDots_normStr]

/-- Record normalization performed by the first loop of
`processDNSRequest`: replace name and data by their normalized forms. -/
def normalizeRecord (r : Record) : Record :=
  { r with name := normStr r.name, data := normStr r.data }

/-- Record normalization is idempotent. -/
theorem normalizeRecord_idem (r : Record) :
    normalizeRecord (normalizeRecord r) = normalizeRecord r := by
  unfold normalizeRecord
  simp [normStr_idem]

/-- Property of a normalized string field: lower-casing it is a no-op and
it neither starts nor ends with a dot. -/
def normalizedStr (s : String) : Prop :=
  strLower s = s ∧ s.data.head? ≠ some '.' ∧ s.data.getLast? ≠ some '.'

/-- Normalization output always satisfies `normalizedStr`. -/
theorem normalizedStr_normStr (s : String) : normalizedStr (normStr s) :=
  ⟨strLower_normStr s, trimDots_head (strLower s), trimDots_last (strLower s)⟩

/-- C9: the record normalization function is idempotent: normalizing an
already-normalized record is a no-op. -/
theorem claim_c9_normalize_idempotent (r : Record) :
    normalizeRecord (normalizeRecord r) = normalizeRecord r :=
  normalizeRecord_idem r

/-- C10: insertTXT and insertSPF are extensionally equal: identical checks
and identical delegation to the text miner for every environment, request
and record index. -/
theorem claim_c10_txt_spf_equal (env : Env) (req : DNSRequest) (recidx : Nat) :
    insertTXT env req recidx = insertSPF env req recidx :=
  rfl

/-- C3 counterexample: for the concrete request records
`[{name := " A.", type := CNAME, data := "B."}, {name := "C.", type := A, data := "X"}]`
the record list produced by the normalization scan of `processDNSRequest`,
as it stands when the CNAME handler is dispatched (the scan reports the
CNAME at index 0), still contains the completely un-normalized name `"C."`
(upper-case, trailing dot) at index 1, and the normalized name at index 0
is `" a"`, which retains its leading whitespace. -/
theorem claim_c3_counterexample :
    ((scanCNAME [⟨" A.", typeCNAME, "B."⟩, ⟨"C.", typeA, "X"⟩]).1.getD 1 emptyRecord).name = "C."
    ∧ ((scanCNAME [⟨" A.", typeCNAME, "B."⟩, ⟨"C.", typeA, "X"⟩]).1.getD 1
        emptyRecord).name.data.getLast? = some '.'
    ∧ ((scanCNAME [⟨" A.", typeCNAME, "B."⟩, ⟨"C.", typeA, "X"⟩]).1.getD 0 emptyRecord).name = " a"
    ∧ ((scanCNAME [⟨" A.", typeCNAME, "B."⟩, ⟨"C.", typeA, "X"⟩]).1.getD 0
        emptyRecord).name.data.head? = some ' '
    ∧ (scanCNAME [⟨" A.", typeCNAME, "B."⟩, ⟨"C.", typeA, "X"⟩]).2 = some 0 := by
  refine ⟨rfl, rfl, ?_, ?_, rfl⟩ <;> decide

/-- C3 as amended: the normalization scan normalizes records in place only
up to and including the first CNAME record (all records when none exists);
each record it normalizes has name and data lower-cased and stripped of
leading and trailing `.` characters (whitespace is not stripped). -/
theorem claim_c3_amended (rs : List Record) (j : Nat) (hj : j < rs.length)
    (hcn : ∀ i, (scanCNAME rs).2 = some i → j ≤ i) :
    normalizedStr ((scanCNAME rs).1.getD j emptyRecord).name
    ∧ normalizedStr ((scanCNAME rs).1.getD j emptyRecord).data := by
  induction rs generalizing j with
  | nil => exact absurd hj (by simp)
  | cons r rest ih =>
    by_cases hc : r.type = typeCNAME
    · have h0 : scanCNAME (r :: rest) =
          ({ r with name := normStr r.name, data := normStr r.data } :: rest, some 0) := by
        rw [scanCNAME, if_pos hc]
      have hj0 : j = 0 := Nat.le_zero.mp (hcn 0 (by rw [h0]))
      rw [h0, hj0]
      exact ⟨normalizedStr_normStr r.name, normalizedStr_normStr r.data⟩
    · have h0 : scanCNAME (r :: rest) =
          ({ r with name := normStr r.name, data := normStr r.data } :: (scanCNAME rest).1,
            (scanCNAME rest).2.map (· + 1)) := by
        rw [scanCNAME, if_neg hc]
      rw [h0]
      match j with
      | 0 =>
        exact ⟨normalizedStr_normStr r.name, normalizedStr_normStr r.data⟩
      | k + 1 =>
        simp only [List.getD_cons_succ]
        refine ih k (by simpa using hj) ?_
        intro i hi
        have := hcn (i + 1) (by rw [h0]; simp [hi])
        omega

/-- Witness for the amended C3 at a concrete one-record CNAME request. -/
theorem claim_c3_amended_witness :
    normalizedStr ((scanCNAME [⟨"A.", typeCNAME, "B."⟩]).1.getD 0 emptyRecord).name
    ∧ normalizedStr ((scanCNAME [⟨"A.", typeCNAME, "B."⟩]).1.getD 0 emptyRecord).data :=
  claim_c3_amended [⟨"A.", typeCNAME, "B."⟩] 0 (by decide) (fun i _ => Nat.zero_le i)

/-! Effect classifiers and the shape of the sink fan-out. -/

/-- Test for handler-invocation markers. -/
def isInvoke : Effect → Bool
  | Effect.invoke _ _ => true
  | _ => false

/-- Handler invocations recorded in an effect list, in order. -/
def invokes (l : List Effect) : List Effect :=
  l.filter isInvoke

/-- Test for everything except log messages. -/
def notLog : Effect → Bool
  | Effect.logMsg _ => false
  | _ => true

/-- Every element of a sink fan-out is an insert for one of the configured
sinks or a log message. -/
theorem sinkWrites_shape {env : Env} {kind : String} {args : List String} {msg : String}
    {e : Effect} (h : e ∈ sinkWrites env kind args msg) :
    (∃ g ∈ env.sinks, e = Effect.insert g.id kind args) ∨ ∃ s, e = Effect.logMsg s := by
  unfold sinkWrites at h
  rw [List.mem_flatMap] at h
  obtain ⟨g, hg, he⟩ := h
  rcases List.mem_cons.mp he with h1 | h2
  · exact Or.inl ⟨g, hg, h1⟩
  · refine Or.inr ?_
    by_cases hf : g.fails
    · rw [if_pos hf] at h2
      exact ⟨g.id ++ " " ++ msg, List.mem_singleton.mp h2⟩
    · rw [if_neg hf] at h2
      exact absurd h2 (List.not_mem_nil e)

/-- Filtering the log messages out of a sink fan-out leaves exactly one
insert attempt per configured sink, in configuration order, regardless of
which sinks fail. -/
theorem filter_notLog_sinkWrites (env : Env) (kind : String) (args : List String)
    (msg : String) :
    (sinkWrites env kind args msg).filter notLog =
      env.sinks.map fun g => Effect.insert g.id kind args := by
  unfold sinkWrites
  induction env.sinks with
  | nil => rfl
  | cons g gs ih =>
    rw [List.flatMap_cons, List.filter_append, ih, List.map_cons]
    by_cases hf : g.fails
    · rw [if_pos hf]
      rfl
    · rw [if_neg hf]
      rfl

/-- No invocation markers inside a sink fan-out. -/
theorem invokes_sinkWrites (env : Env) (kind : String) (args : List String) (msg : String) :
    invokes (sinkWrites env kind args msg) = [] := by
  unfold invokes
  rw [List.filter_eq_nil_iff]
  intro e he
  rcases sinkWrites_shape he with ⟨g, _, rfl⟩ | ⟨s, rfl⟩ <;> simp [isInvoke]

/-- Splitting `invokes` over an append. -/
theorem invokes_append (a b : List Effect) :
    invokes (a ++ b) = invokes a ++ invokes b :=
  List.filter_append a b

/-- Effects a record handler may emit: never an invocation marker, and any
new-name publication carries a non-empty domain. -/
def tameEffect (e : Effect) : Prop :=
  isInvoke e = false ∧ ∀ n d t s, e = Effect.nameEvent n d t s → d ≠ ""

/-- Sink fan-outs only emit tame effects. -/
theorem sinkWrites_tame {env : Env} {kind : String} {args : List String} {msg : String}
    {e : Effect} (h : e ∈ sinkWrites env kind args msg) : tameEffect e := by
  rcases sinkWrites_shape h with ⟨g, _, rfl⟩ | ⟨s, rfl⟩ <;>
    exact ⟨rfl, fun n d t s h => Effect.noConfusion h⟩

/-- Heartbeats are tame. -/
theorem heartbeat_tame : tameEffect Effect.heartbeat :=
  ⟨rfl, fun n d t s h => Effect.noConfusion h⟩

/-- Address events are tame. -/
theorem addrEvent_tame (a b c d : String) : tameEffect (Effect.addrEvent a b c d) :=
  ⟨rfl, fun _ _ _ _ h => Effect.noConfusion h⟩

/-- A name event with non-empty domain is tame. -/
theorem nameEvent_tame (n d t s : String) (hd : d ≠ "") :
    tameEffect (Effect.nameEvent n d t s) := by
  refine ⟨rfl, fun n2 d2 t2 s2 h => ?_⟩
  cases h
  exact hd

/-- Every effect of the CNAME handler is tame. -/
theorem insertCNAME_tame {env : Env} {req : DNSRequest} {i : Nat} {e : Effect}
    (h : e ∈ insertCNAME env req i) : tameEffect e := by
  simp only [insertCNAME] at h
  split at h
  · split at h
    · exact absurd h (List.not_mem_nil e)
    · split at h
      · exact absurd h (List.not_mem_nil e)
      · next d =>
        split at h
        · exact absurd h (List.not_mem_nil e)
        · next hd =>
          rcases List.mem_append.mp h with h1 | h2
          · exact sinkWrites_tame h1
          · rcases List.mem_cons.mp h2 with h3 | h4
            · rw [h3]; exact nameEvent_tame _ _ _ _ hd
            · rw [List.mem_singleton.mp h4]; exact heartbeat_tame
  · exact absurd h (List.not_mem_nil e)

/-- Every effect of the A handler is tame. -/
theorem insertA_tame {env : Env} {req : DNSRequest} {i : Nat} {e : Effect}
    (h : e ∈ insertA env req i) : tameEffect e := by
  simp only [insertA] at h
  split at h
  · split at h
    · exact absurd h (List.not_mem_nil e)
    · rcases List.mem_append.mp h with h1 | h2
      · exact sinkWrites_tame h1
      · rcases List.mem_cons.mp h2 with h3 | h4
        · rw [h3]; exact addrEvent_tame _ _ _ _
        · rw [List.mem_singleton.mp h4]; exact heartbeat_tame
  · exact absurd h (List.not_mem_nil e)

/-- Every effect of the AAAA handler is tame. -/
theorem insertAAAA_tame {env : Env} {req : DNSRequest} {i : Nat} {e : Effect}
    (h : e ∈ insertAAAA env req i) : tameEffect e := by
  simp only [insertAAAA] at h
  split at h
  · split at h
    · exact absurd h (List.not_mem_nil e)
    · rcases List.mem_append.mp h with h1 | h2
      · exact sinkWrites_tame h1
      · rcases List.mem_cons.mp h2 with h3 | h4
        · rw [h3]; exact addrEvent_tame _ _ _ _
        · rw [List.mem_singleton.mp h4]; exact heartbeat_tame
  · exact absurd h (List.not_mem_nil e)

/-- Every effect of the PTR handler is tame. -/
theorem insertPTR_tame {env : Env} {req : DNSRequest} {i : Nat} {e : Effect}
    (h : e ∈ insertPTR env req i) : tameEffect e := by
  simp only [insertPTR] at h
  split at h
  · split at h
    · exact absurd h (List.not_mem_nil e)
    · split at h
      · exact absurd h (List.not_mem_nil e)
      · next hd =>
        rcases List.mem_append.mp h with h1 | h2
        · exact sinkWrites_tame h1
        · rcases List.mem_cons.mp h2 with h3 | h4
          · rw [h3]; exact nameEvent_tame _ _ _ _ hd
          · rw [List.mem_singleton.mp h4]; exact heartbeat_tame
  · exact absurd h (List.not_mem_nil e)

/-- Every effect of the SRV handler is tame. -/
theorem insertSRV_tame {env : Env} {req : DNSRequest} {i : Nat} {e : Effect}
    (h : e ∈ insertSRV env req i) : tameEffect e := by
  simp only [insertSRV] at h
  split at h
  · split at h
    · exact absurd h (List.not_mem_nil e)
    · rcases List.mem_append.mp h with h12 | h3
      · rcases List.mem_append.mp h12 with h1 | h2
        · exact sinkWrites_tame h1
        · split at h2
          · next hd => rw [List.mem_singleton.mp h2]; exact nameEvent_tame _ _ _ _ hd
          · exact absurd h2 (List.not_mem_nil e)
      · rw [List.mem_singleton.mp h3]; exact heartbeat_tame
  · exact absurd h (List.not_mem_nil e)

/-- Every effect of the NS handler is tame. -/
theorem insertNS_tame {env : Env} {req : DNSRequest} {i : Nat} {e : Effect}
    (h : e ∈ insertNS env req i) : tameEffect e := by
  simp only [insertNS] at h
  split at h
  · split at h
    · exact absurd h (List.not_mem_nil e)
    · split at h
      · exact absurd h (List.not_mem_nil e)
      · split at h
        · exact absurd h (List.not_mem_nil e)
        · next hd =>
          rcases List.mem_append.mp h with h12 | h3
          · rcases List.mem_append.mp h12 with h1 | h2
            · exact sinkWrites_tame h1
            · split at h2
              · rw [List.mem_singleton.mp h2]; exact nameEvent_tame _ _ _ _ hd
              · exact absurd h2 (List.not_mem_nil e)
          · rw [List.mem_singleton.mp h3]; exact heartbeat_tame
  · exact absurd h (List.not_mem_nil e)

/-- Every effect of the MX handler is tame. -/
theorem insertMX_tame {env : Env} {req : DNSRequest} {i : Nat} {e : Effect}
    (h : e ∈ insertMX env req i) : tameEffect e := by
  simp only [insertMX] at h
  split at h
  · split at h
    · exact absurd h (List.not_mem_nil e)
    · split at h
      · exact absurd h (List.not_mem_nil e)
      · split at h
        · exact absurd h (List.not_mem_nil e)
        · next hd =>
          rcases List.mem_append.mp h with h12 | h3
          · rcases List.mem_append.mp h12 with h1 | h2
            · exact sinkWrites_tame h1
            · split at h2
              · rw [List.mem_singleton.mp h2]; exact nameEvent_tame _ _ _ _ hd
              · exact absurd h2 (List.not_mem_nil e)
          · rw [List.mem_singleton.mp h3]; exact heartbeat_tame
  · exact absurd h (List.not_mem_nil e)

/-- Every effect of the text miner is tame. -/
theorem findNamesAndAddresses_tame {env : Env} {data domain : String} {e : Effect}
    (h : e ∈ findNamesAndAddresses env data domain) : tameEffect e := by
  simp only [findNamesAndAddresses] at h
  split at h
  · rcases List.mem_append.mp h with h12 | h3
    · rcases List.mem_append.mp h12 with h1 | h2
      · rw [List.mem_map] at h1
        obtain ⟨ip, _, he⟩ := h1
        rw [← he]
        exact addrEvent_tame _ _ _ _
      · rw [List.mem_flatMap] at h2
        obtain ⟨n, _, he⟩ := h2
        split at he
        · split at he
          · exact absurd he (List.not_mem_nil e)
          · next hd => rw [List.mem_singleton.mp he]; exact nameEvent_tame _ _ _ _ hd
        · exact absurd he (List.not_mem_nil e)
    · rw [List.mem_singleton.mp h3]; exact heartbeat_tame
  · exact absurd h (List.not_mem_nil e)

/-- Every effect of the TXT handler is tame. -/
theorem insertTXT_tame {env : Env} {req : DNSRequest} {i : Nat} {e : Effect}
    (h : e ∈ insertTXT env req i) : tameEffect e := by
  simp only [insertTXT] at h
  split at h
  · split at h
    · exact findNamesAndAddresses_tame h
    · exact absurd h (List.not_mem_nil e)
  · exact absurd h (List.not_mem_nil e)

/-- Every effect of the SPF handler is tame. -/
theorem insertSPF_tame {env : Env} {req : DNSRequest} {i : Nat} {e : Effect}
    (h : e ∈ insertSPF env req i) : tameEffect e := by
  simp only [insertSPF] at h
  split at h
  · split at h
    · exact findNamesAndAddresses_tame h
    · exact absurd h (List.not_mem_nil e)
  · exact absurd h (List.not_mem_nil e)

/-- Every effect emitted by a record handler reached through the
dispatcher's type switch is tame (the switch's own invocation markers are
not handler output). -/
theorem dispatchRecord_mem {env : Env} {req : DNSRequest} {i : Nat} {e : Effect}
    (h : e ∈ dispatchRecord env req i) :
    (∃ hd, e = Effect.invoke hd i) ∨ tameEffect e := by
  simp only [dispatchRecord] at h
  split at h
  · rcases List.mem_cons.mp h with h1 | h2
    · exact Or.inl ⟨"A", h1⟩
    · exact Or.inr (insertA_tame h2)
  · split at h
    · rcases List.mem_cons.mp h with h1 | h2
      · exact Or.inl ⟨"AAAA", h1⟩
      · exact Or.inr (insertAAAA_tame h2)
    · split at h
      · rcases List.mem_cons.mp h with h1 | h2
        · exact Or.inl ⟨"PTR", h1⟩
        · exact Or.inr (insertPTR_tame h2)
      · split at h
        · rcases List.mem_cons.mp h with h1 | h2
          · exact Or.inl ⟨"SRV", h1⟩
          · exact Or.inr (insertSRV_tame h2)
        · split at h
          · rcases List.mem_cons.mp h with h1 | h2
            · exact Or.inl ⟨"NS", h1⟩
            · exact Or.inr (insertNS_tame h2)
          · split at h
            · rcases List.mem_cons.mp h with h1 | h2
              · exact Or.inl ⟨"MX", h1⟩
              · exact Or.inr (insertMX_tame h2)
            · split at h
              · rcases List.mem_cons.mp h with h1 | h2
                · exact Or.inl ⟨"TXT", h1⟩
                · exact Or.inr (insertTXT_tame h2)
              · split at h
                · rcases List.mem_cons.mp h with h1 | h2
                  · exact Or.inl ⟨"SPF", h1⟩
                  · exact Or.inr (insertSPF_tame h2)
                · exact absurd h (List.not_mem_nil e)

/-- Every name event emitted by the dispatch loop has a non-empty domain. -/
theorem dispatchAll_nameEvent {env : Env} {req : DNSRequest} {e : Effect} :
    ∀ {i : Nat} {rs : List Record}, e ∈ dispatchAll env req i rs →
      ∀ n d t s, e = Effect.nameEvent n d t s → d ≠ "" := by
  intro i rs
  induction rs generalizing i with
  | nil => intro h; exact absurd h (List.not_mem_nil e)
  | cons r rest ih =>
    intro h
    simp only [dispatchAll] at h
    rcases List.mem_append.mp h with h1 | h2
    · rcases List.mem_cons.mp h1 with h3 | h4
      · intro n d t s he
        rw [he] at h3
        exact absurd h3 (fun hx => Effect.noConfusion hx)
      · rcases dispatchRecord_mem h4 with ⟨hd, he⟩ | ht
        · intro n d t s hne
          rw [hne] at he
          exact absurd he (fun hx => Effect.noConfusion hx)
        · exact ht.2
    · exact ih h2

/-- C1: no name event published anywhere in the pipeline carries an empty
domain: every code path that publishes on the new-name topic (the CNAME,
PTR, SRV, NS and MX handlers and the text miner reached through TXT/SPF)
first establishes a non-empty registrable domain. -/
theorem claim_c1_no_empty_domain (env : Env) (req : DNSRequest)
    (n d t s : String) (h : Effect.nameEvent n d t s ∈ processDNSRequest env req) :
    d ≠ "" := by
  simp only [processDNSRequest] at h
  split at h
  · rcases List.mem_cons.mp h with h1 | h2
    · exact absurd h1 (fun hx => Effect.noConfusion hx)
    · revert h2
      split
      · intro h2
        rcases List.mem_cons.mp h2 with h3 | h4
        · exact absurd h3 (fun hx => Effect.noConfusion hx)
        · exact (insertCNAME_tame h4).2 n d t s rfl
      · intro h2
        exact dispatchAll_nameEvent h2 n d t s rfl
  · exact absurd h (List.not_mem_nil (Effect.nameEvent n d t s))

/-- Lists of tame effects contain no invocation markers. -/
theorem invokes_eq_nil_of_tame {l : List Effect} (h : ∀ e ∈ l, tameEffect e) :
    invokes l = [] := by
  unfold invokes
  rw [List.filter_eq_nil_iff]
  intro e he
  rw [(h e he).1]
  exact Bool.false_ne_true

/-- When some record has type CNAME, the scan stops exactly at the first
such record, in input order. -/
theorem scanCNAME_idx (rs : List Record) (h : ∃ r ∈ rs, r.type = typeCNAME) :
    (scanCNAME rs).2 = some (rs.findIdx fun r => r.type == typeCNAME) := by
  induction rs with
  | nil => simp at h
  | cons r rest ih =>
    by_cases hc : r.type = typeCNAME
    · rw [scanCNAME, if_pos hc, List.findIdx_cons]
      simp [hc]
    · rw [scanCNAME, if_neg hc, List.findIdx_cons]
      have hrest : ∃ q ∈ rest, q.type = typeCNAME := by
        rcases h with ⟨q, hq, hqc⟩
        rcases List.mem_cons.mp hq with rfl | hq2
        · exact absurd hqc hc
        · exact ⟨q, hq2, hqc⟩
      simp only [ih hrest, Option.map_some']
      rw [show (r.type == typeCNAME) = false from beq_eq_false_iff_ne.mpr hc]
      rfl

/-- Concrete environment: both dependencies present, no sinks, a
public-suffix oracle that always answers `example.net`, and an empty
scope. -/
def envW : Env :=
  { hasCfg := true, hasBus := true, uuid := "uuid-1",
    whichDomain := fun _ => "", isDomainInScope := fun _ => false,
    etldPlusOne := fun _ => some "example.net",
    ipMatches := fun _ => [], subMatches := fun _ => [], sinks := [] }

/-- Concrete request: one CNAME record followed by one A record. -/
def reqW : DNSRequest :=
  { name := "www.example.com", domain := "example.com", tag := "dns", source := "DNS",
    records := [⟨"www.example.com.", typeCNAME, "edge.cdn.example.net."⟩,
                ⟨"www.example.com.", typeA, "93.184.216.34"⟩] }

/-- Witness for C1 at a concrete CNAME answer. -/
theorem claim_c1_witness :
    Effect.nameEvent "edge.cdn.example.net" "example.net" tagDNS "DNS" ∈
      processDNSRequest envW reqW
    ∧ "example.net" ≠ "" := by
  refine ⟨by decide, ?_⟩
  exact claim_c1_no_empty_domain envW reqW "edge.cdn.example.net" "example.net" tagDNS "DNS"
    (by decide)

/-- C2: when any record of the answer set has type CNAME, exactly one
handler invocation occurs: the CNAME handler, applied to the first CNAME
record in input order; no other record is processed. -/
theorem claim_c2_cname_exclusive (env : Env) (req : DNSRequest)
    (hbus : env.hasBus = true) (h : ∃ r ∈ req.records, r.type = typeCNAME) :
    invokes (processDNSRequest env req) =
      [Effect.invoke "CNAME" (req.records.findIdx fun r => r.type == typeCNAME)] := by
  simp only [processDNSRequest, hbus, if_true]
  rw [scanCNAME_idx req.records h]
  show invokes (Effect.heartbeat :: Effect.invoke "CNAME" _ :: insertCNAME env _ _) = _
  unfold invokes
  rw [List.filter_cons, List.filter_cons]
  have h1 : invokes (insertCNAME env
      { req with records := (scanCNAME req.records).1 }
      (req.records.findIdx fun r => r.type == typeCNAME)) = [] :=
    invokes_eq_nil_of_tame (fun e he => insertCNAME_tame he)
  unfold invokes at h1
  rw [h1]
  rfl

/-- Witness for C2: the concrete request holds a CNAME record at index 0
followed by an A record, and the pipeline performs exactly the one CNAME
invocation. -/
theorem claim_c2_witness :
    envW.hasBus = true ∧ (∃ r ∈ reqW.records, r.type = typeCNAME)
    ∧ invokes (processDNSRequest envW reqW) =
        [Effect.invoke "CNAME" (reqW.records.findIdx fun r => r.type == typeCNAME)] :=
  ⟨rfl, by decide, claim_c2_cname_exclusive envW reqW rfl (by decide)⟩

/-! Admission-controller backoff lemmas. -/

/-- Sleep sequence of the admission loop: the n-th delay performed after
entering with index `cur` is `delays[min (cur + n) 6]`. -/
theorem acquireLoop_delay (bs : List Bool) : ∀ (cur n : Nat), cur ≤ 6 →
    n < (acquireLoop bs cur).1.length →
    (acquireLoop bs cur).1.getD n 0 = delays.getD (min (cur + n) 6) 0 := by
  induction bs with
  | nil => intro cur n _ hn; exact absurd hn (by simp [acquireLoop])
  | cons b bs ih =>
    intro cur n hcur hn
    by_cases hb : b = true
    · rw [acquireLoop, if_pos hb] at hn
      exact absurd hn (by simp)
    · rw [acquireLoop, if_neg hb] at hn ⊢
      match n with
      | 0 =>
        have : min (cur + 0) 6 = cur := by omega
        rw [this]
        rfl
      | k + 1 =>
        show (acquireLoop bs (nextIdx cur)).1.getD k 0 = _
        have hlen : k < (acquireLoop bs (nextIdx cur)).1.length := by
          simpa using hn
        rw [ih (nextIdx cur) k (by unfold nextIdx; split <;> omega) hlen]
        have : min (nextIdx cur + k) 6 = min (cur + (k + 1)) 6 := by
          unfold nextIdx; split <;> omega
        rw [this]

/-- On successful acquisition the retry index is reset to zero. -/
theorem acquireLoop_reset (bs : List Bool) : ∀ (cur : Nat),
    (acquireLoop bs cur).2.2 = true → (acquireLoop bs cur).2.1 = 0 := by
  induction bs with
  | nil => intro cur h; exact absurd h (by simp [acquireLoop])
  | cons b bs ih =>
    intro cur h
    by_cases hb : b = true
    · rw [acquireLoop, if_pos hb]
    · rw [acquireLoop, if_neg hb] at h ⊢
      exact ih (nextIdx cur) h

/-- Backoff table entries never exceed 500. -/
theorem delays_le (m : Nat) : delays.getD m 0 ≤ 500 := by
  rcases m with _|_|_|_|_|_|_|m <;> simp [delays]

/-- Backoff table is non-decreasing on indices up to 6. -/
theorem delays_mono_fin : ∀ a b : Fin 7, a ≤ b →
    delays.getD a.val 0 ≤ delays.getD b.val 0 := by decide

/-- C6: for one blocked submission, the n-th consecutive wait delay equals
`delays[min n 6]` where `delays = [25, 50, 75, 100, 150, 250, 500]`; the
delays are non-decreasing and never exceed 500 ms per iteration; and on
successful slot acquisition the retry counter is reset to 0. -/
theorem claim_c6_backoff (bs : List Bool) (n m : Nat)
    (hn : n < (acquireLoop bs 0).1.length) (hm : m < (acquireLoop bs 0).1.length)
    (hnm : n ≤ m) :
    (acquireLoop bs 0).1.getD n 0 = delays.getD (min n 6) 0
    ∧ (acquireLoop bs 0).1.getD n 0 ≤ 500
    ∧ (acquireLoop bs 0).1.getD n 0 ≤ (acquireLoop bs 0).1.getD m 0
    ∧ ((acquireLoop bs 0).2.2 = true → (acquireLoop bs 0).2.1 = 0) := by
  have he : ∀ k, k < (acquireLoop bs 0).1.length →
      (acquireLoop bs 0).1.getD k 0 = delays.getD (min k 6) 0 := by
    intro k hk
    have := acquireLoop_delay bs 0 k (by omega) hk
    simpa using this
  refine ⟨he n hn, ?_, ?_, acquireLoop_reset bs 0⟩
  · rw [he n hn]
    exact delays_le (min n 6)
  · rw [he n hn, he m hm]
    exact delays_mono_fin ⟨min n 6, by omega⟩ ⟨min m 6, by omega⟩ (by simp; omega)

/-- Witness for C6 on a schedule of eight failed acquisitions followed by
one success: the eighth delay has saturated at 500 ms and the counter is
reset. -/
theorem claim_c6_backoff_witness :
    2 < (acquireLoop [false, false, false, false, false, false, false, false, true] 0).1.length
    ∧ ((acquireLoop [false, false, false, false, false, false, false, false, true] 0).1.getD 2 0 =
        delays.getD (min 2 6) 0
      ∧ (acquireLoop [false, false, false, false, false, false, false, false, true] 0).1.getD 2 0 ≤ 500
      ∧ (acquireLoop [false, false, false, false, false, false, false, false, true] 0).1.getD 2 0 ≤
          (acquireLoop [false, false, false, false, false, false, false, false, true] 0).1.getD 7 0
      ∧ ((acquireLoop [false, false, false, false, false, false, false, false, true] 0).2.2 = true →
          (acquireLoop [false, false, false, false, false, false, false, false, true] 0).2.1 = 0)) :=
  ⟨by decide,
    claim_c6_backoff [false, false, false, false, false, false, false, false, true] 2 7
      (by decide) (by decide) (by decide)⟩

/-- Silent-return path shared by the entry points when a dependency
pointer is nil after a successful type assertion (the typed-nil case:
`hasBus`/`hasCfg` false): no effect at all — no event, no log — is
produced.  This lemma covers only that case; an absent context key never
reaches these guards, see `claim_c5_panic_on_absent`. -/
theorem nilDeps_silent_return (env : Env) (sched : List Bool) (req : DNSRequest)
    (areq : ASNRequest) (i : Nat) (dat dom : String)
    (h : ¬(env.hasCfg = true ∧ env.hasBus = true)) :
    (env.hasBus = false → onDNSRequest env sched req = [] ∧ processDNSRequest env req = [])
    ∧ onASNRequest env areq = []
    ∧ insertCNAME env req i = []
    ∧ insertA env req i = []
    ∧ insertAAAA env req i = []
    ∧ insertPTR env req i = []
    ∧ insertSRV env req i = []
    ∧ insertNS env req i = []
    ∧ insertMX env req i = []
    ∧ insertTXT env req i = []
    ∧ insertSPF env req i = []
    ∧ findNamesAndAddresses env dat dom = [] := by
  have hnb : ¬(env.hasCfg ∧ env.hasBus) := by simpa using h
  have hfna : findNamesAndAddresses env dat dom = [] := by
    rw [findNamesAndAddresses, if_neg hnb]
  have htxt : ∀ dat2 dom2, findNamesAndAddresses env dat2 dom2 = [] := by
    intro dat2 dom2
    rw [findNamesAndAddresses, if_neg hnb]
  refine ⟨?_, ?_, ?_, ?_, ?_, ?_, ?_, ?_, ?_, ?_, ?_, hfna⟩
  · intro hb
    constructor
    · rw [onDNSRequest, if_neg (by simp [hb])]
    · rw [processDNSRequest, if_neg (by simp [hb])]
  · rw [onASNRequest]
    split <;> simp [hnb]
  · rw [insertCNAME, if_neg hnb]
  · rw [insertA, if_neg hnb]
  · rw [insertAAAA, if_neg hnb]
  · rw [insertPTR, if_neg hnb]
  · rw [insertSRV, if_neg hnb]
  · rw [insertNS, if_neg hnb]
  · rw [insertMX, if_neg hnb]
  · rw [insertTXT]
    by_cases hc : env.hasCfg = true
    · rw [if_pos (by simp [hc])]
      split
      · exact htxt _ _
      · rfl
    · rw [if_neg (by simp [hc])]
  · rw [insertSPF]
    by_cases hc : env.hasCfg = true
    · rw [if_pos (by simp [hc])]
      split
      · exact htxt _ _
      · rfl
    · rw [if_neg (by simp [hc])]

/-- Concrete environment for the PTR scope check: dependencies present,
one configured sink, scope authority that rejects every name. -/
def envPTR : Env :=
  { hasCfg := true, hasBus := true, uuid := "uuid-3",
    whichDomain := fun _ => "", isDomainInScope := fun _ => false,
    etldPlusOne := fun _ => none,
    ipMatches := fun _ => [], subMatches := fun _ => [], sinks := [⟨"g1", false⟩] }

/-- Concrete PTR request whose target is out of scope. -/
def reqPTR : DNSRequest :=
  { name := "4.3.2.1.in-addr.arpa", domain := "", tag := "dns", source := "Reverse DNS",
    records := [⟨"4.3.2.1.in-addr.arpa", typePTR, "host.outside.example"⟩] }

/-- C4 counterexample: an out-of-scope PTR target with a non-empty
normalized target and one configured sink produces no effect at all — in
particular the PTR fact is NOT written to the sink, contradicting the
claim that the fact write is independent of the scope check
(datamgmtsrv.go:256 returns before the sink loop). -/
theorem claim_c4_counterexample :
    removeLastDot ((reqPTR.records.getD 0 emptyRecord).data) = "host.outside.example"
    ∧ "host.outside.example" ≠ ""
    ∧ strLower (envPTR.whichDomain "host.outside.example") = ""
    ∧ envPTR.sinks = [⟨"g1", false⟩]
    ∧ insertPTR envPTR reqPTR 0 = []
    ∧ Effect.insert "g1" "PTR"
        [reqPTR.name, "host.outside.example", reqPTR.source, reqPTR.tag, envPTR.uuid]
        ∉ insertPTR envPTR reqPTR 0 := by
  refine ⟨?_, by decide, rfl, rfl, ?_, ?_⟩ <;> decide

/-- C4 as amended: a PTR record whose normalized target is non-empty but
whose domain (via the Scope Oracle's WhichDomain) is out of scope produces
neither a NameEvent nor any sink write: the handler returns before
writing, so the database fact is dropped together with the follow-up
event. -/
theorem claim_c4_amended (env : Env) (req : DNSRequest) (i : Nat)
    (htarget : removeLastDot (req.records.getD i emptyRecord).data ≠ "")
    (hscope : strLower (env.whichDomain (removeLastDot (req.records.getD i emptyRecord).data)) = "") :
    insertPTR env req i = [] := by
  rw [insertPTR]
  split
  · rw [if_neg htarget, if_pos hscope]
  · rfl

/-- Witness for the amended C4 at the concrete out-of-scope PTR input. -/
theorem claim_c4_amended_witness :
    removeLastDot ((reqPTR.records.getD 0 emptyRecord).data) ≠ ""
    ∧ insertPTR envPTR reqPTR 0 = [] :=
  ⟨by decide, claim_c4_amended envPTR reqPTR 0 (by decide) (by decide)⟩

/-- Replace each configured sink's failure behavior, keeping identities. -/
def setFails (env : Env) (f : String → Bool) : Env :=
  { env with sinks := env.sinks.map fun g => { g with fails := f g.id } }

/-- Changing which sinks fail does not change the sink identities. -/
theorem setFails_ids (env : Env) (f : String → Bool) :
    (setFails env f).sinks.map Sink.id = env.sinks.map Sink.id := by
  unfold setFails
  rw [List.map_map]
  rfl

/-- Two environments whose sinks carry the same identities produce, after
dropping log messages, the same sink fan-out. -/
theorem sinkWrites_filter_eq {env1 env2 : Env}
    (h : env1.sinks.map Sink.id = env2.sinks.map Sink.id)
    (kind : String) (args : List String) (msg : String) :
    (sinkWrites env1 kind args msg).filter notLog =
      (sinkWrites env2 kind args msg).filter notLog := by
  rw [filter_notLog_sinkWrites, filter_notLog_sinkWrites]
  have h1 : ∀ e : Env, e.sinks.map (fun g => Effect.insert g.id kind args) =
      (e.sinks.map Sink.id).map (fun s => Effect.insert s kind args) := by
    intro e
    rw [List.map_map]
    rfl
  rw [h1, h1, h]

/-- Projection: `setFails` keeps the config flag. -/
theorem setFails_hasCfg (env : Env) (f : String → Bool) :
    (setFails env f).hasCfg = env.hasCfg := rfl

/-- Projection: `setFails` keeps the bus flag. -/
theorem setFails_hasBus (env : Env) (f : String → Bool) :
    (setFails env f).hasBus = env.hasBus := rfl

/-- Projection: `setFails` keeps the run identifier. -/
theorem setFails_uuid (env : Env) (f : String → Bool) :
    (setFails env f).uuid = env.uuid := rfl

/-- Projection: `setFails` keeps the scope oracle. -/
theorem setFails_whichDomain (env : Env) (f : String → Bool) :
    (setFails env f).whichDomain = env.whichDomain := rfl

/-- Projection: `setFails` keeps the scope membership test. -/
theorem setFails_isDomainInScope (env : Env) (f : String → Bool) :
    (setFails env f).isDomainInScope = env.isDomainInScope := rfl

/-- Projection: `setFails` keeps the public-suffix oracle. -/
theorem setFails_etldPlusOne (env : Env) (f : String → Bool) :
    (setFails env f).etldPlusOne = env.etldPlusOne := rfl

/-- Non-log effects of the CNAME handler do not depend on which sinks
fail. -/
theorem insertCNAME_filter_setFails (env : Env) (f : String → Bool)
    (req : DNSRequest) (i : Nat) :
    (insertCNAME (setFails env f) req i).filter notLog =
      (insertCNAME env req i).filter notLog := by
  unfold insertCNAME
  simp only [setFails_hasCfg, setFails_hasBus, setFails_uuid, setFails_whichDomain,
    setFails_isDomainInScope, setFails_etldPlusOne]
  repeat' split
  all_goals try rfl
  all_goals simp only [List.filter_append, sinkWrites_filter_eq (setFails_ids env f)]

/-- Non-log effects of the A handler do not depend on which sinks fail. -/
theorem insertA_filter_setFails (env : Env) (f : String → Bool)
    (req : DNSRequest) (i : Nat) :
    (insertA (setFails env f) req i).filter notLog =
      (insertA env req i).filter notLog := by
  unfold insertA
  simp only [setFails_hasCfg, setFails_hasBus, setFails_uuid]
  repeat' split
  all_goals try rfl
  all_goals simp only [List.filter_append, sinkWrites_filter_eq (setFails_ids env f)]

/-- Non-log effects of the AAAA handler do not depend on which sinks
fail. -/
theorem insertAAAA_filter_setFails (env : Env) (f : String → Bool)
    (req : DNSRequest) (i : Nat) :
    (insertAAAA (setFails env f) req i).filter notLog =
      (insertAAAA env req i).filter notLog := by
  unfold insertAAAA
  simp only [setFails_hasCfg, setFails_hasBus, setFails_uuid]
  repeat' split
  all_goals try rfl
  all_goals simp only [List.filter_append, sinkWrites_filter_eq (setFails_ids env f)]

/-- Non-log effects of the PTR handler do not depend on which sinks
fail. -/
theorem insertPTR_filter_setFails (env : Env) (f : String → Bool)
    (req : DNSRequest) (i : Nat) :
    (insertPTR (setFails env f) req i).filter notLog =
      (insertPTR env req i).filter notLog := by
  unfold insertPTR
  simp only [setFails_hasCfg, setFails_hasBus, setFails_uuid, setFails_whichDomain]
  repeat' split
  all_goals try rfl
  all_goals simp only [List.filter_append, sinkWrites_filter_eq (setFails_ids env f)]

/-- Non-log effects of the SRV handler do not depend on which sinks
fail. -/
theorem insertSRV_filter_setFails (env : Env) (f : String → Bool)
    (req : DNSRequest) (i : Nat) :
    (insertSRV (setFails env f) req i).filter notLog =
      (insertSRV env req i).filter notLog := by
  unfold insertSRV
  simp only [setFails_hasCfg, setFails_hasBus, setFails_uuid, setFails_whichDomain]
  repeat' split
  all_goals try rfl
  all_goals simp only [List.filter_append, sinkWrites_filter_eq (setFails_ids env f)]

/-- Non-log effects of the NS handler do not depend on which sinks fail. -/
theorem insertNS_filter_setFails (env : Env) (f : String → Bool)
    (req : DNSRequest) (i : Nat) :
    (insertNS (setFails env f) req i).filter notLog =
      (insertNS env req i).filter notLog := by
  unfold insertNS
  simp only [setFails_hasCfg, setFails_hasBus, setFails_uuid, setFails_etldPlusOne]
  repeat' split
  all_goals try rfl
  all_goals simp only [List.filter_append, sinkWrites_filter_eq (setFails_ids env f)]

/-- Non-log effects of the MX handler do not depend on which sinks fail. -/
theorem insertMX_filter_setFails (env : Env) (f : String → Bool)
    (req : DNSRequest) (i : Nat) :
    (insertMX (setFails env f) req i).filter notLog =
      (insertMX env req i).filter notLog := by
  unfold insertMX
  simp only [setFails_hasCfg, setFails_hasBus, setFails_uuid, setFails_etldPlusOne]
  repeat' split
  all_goals try rfl
  all_goals simp only [List.filter_append, sinkWrites_filter_eq (setFails_ids env f)]

/-- Non-log effects of the ASN entry point do not depend on which sinks
fail. -/
theorem onASNRequest_filter_setFails (env : Env) (f : String → Bool)
    (areq : ASNRequest) :
    (onASNRequest (setFails env f) areq).filter notLog =
      (onASNRequest env areq).filter notLog := by
  unfold onASNRequest
  simp only [setFails_hasCfg, setFails_hasBus, setFails_uuid]
  repeat' split
  all_goals try rfl
  all_goals simp only [List.filter_append, sinkWrites_filter_eq (setFails_ids env f)]

/-- C7: in every handler's sink fan-out, which sinks fail changes only the
log messages: the insert attempts (one per configured sink) and the
follow-up events are identical under any two failure assignments, the
handlers still return normally (their value is the effect list, there is
no error channel), and within one fan-out every configured sink receives
the attempted insert. -/
theorem claim_c7_sink_isolation (env : Env) (f1 f2 : String → Bool)
    (req : DNSRequest) (areq : ASNRequest) (i : Nat) :
    ((insertCNAME (setFails env f1) req i).filter notLog =
        (insertCNAME (setFails env f2) req i).filter notLog)
    ∧ ((insertA (setFails env f1) req i).filter notLog =
        (insertA (setFails env f2) req i).filter notLog)
    ∧ ((insertAAAA (setFails env f1) req i).filter notLog =
        (insertAAAA (setFails env f2) req i).filter notLog)
    ∧ ((insertPTR (setFails env f1) req i).filter notLog =
        (insertPTR (setFails env f2) req i).filter notLog)
    ∧ ((insertSRV (setFails env f1) req i).filter notLog =
        (insertSRV (setFails env f2) req i).filter notLog)
    ∧ ((insertNS (setFails env f1) req i).filter notLog =
        (insertNS (setFails env f2) req i).filter notLog)
    ∧ ((insertMX (setFails env f1) req i).filter notLog =
        (insertMX (setFails env f2) req i).filter notLog)
    ∧ ((onASNRequest (setFails env f1) areq).filter notLog =
        (onASNRequest (setFails env f2) areq).filter notLog)
    ∧ (∀ (kind : String) (args : List String) (msg : String) (g : Sink),
        g ∈ env.sinks → Effect.insert g.id kind args ∈ sinkWrites env kind args msg) :=
  ⟨(insertCNAME_filter_setFails env f1 req i).trans
      (insertCNAME_filter_setFails env f2 req i).symm,
    (insertA_filter_setFails env f1 req i).trans
      (insertA_filter_setFails env f2 req i).symm,
    (insertAAAA_filter_setFails env f1 req i).trans
      (insertAAAA_filter_setFails env f2 req i).symm,
    (insertPTR_filter_setFails env f1 req i).trans
      (insertPTR_filter_setFails env f2 req i).symm,
    (insertSRV_filter_setFails env f1 req i).trans
      (insertSRV_filter_setFails env f2 req i).symm,
    (insertNS_filter_setFails env f1 req i).trans
      (insertNS_filter_setFails env f2 req i).symm,
    (insertMX_filter_setFails env f1 req i).trans
      (insertMX_filter_setFails env f2 req i).symm,
    (onASNRequest_filter_setFails env f1 areq).trans
      (onASNRequest_filter_setFails env f2 areq).symm,
    fun kind args msg g hg =>
      List.mem_flatMap.mpr ⟨g, hg, List.mem_cons_self _ _⟩⟩

/-- Concrete three-sink environment for the fan-out witness; the
public-suffix oracle always answers `example.net`. -/
def env3 : Env :=
  { hasCfg := true, hasBus := true, uuid := "uuid-4",
    whichDomain := fun _ => "", isDomainInScope := fun _ => false,
    etldPlusOne := fun _ => some "example.net",
    ipMatches := fun _ => [], subMatches := fun _ => [],
    sinks := [⟨"g1", false⟩, ⟨"g2", false⟩, ⟨"g3", false⟩] }

/-- Witness for C7: with three configured sinks of which only `g2` fails,
the CNAME handler's non-log effects match the all-healthy run, and every
sink — `g1`, `g2` and `g3` alike — receives the attempted insert. -/
theorem claim_c7_witness :
    ((insertCNAME (setFails env3 (fun s => s == "g2")) reqW 0).filter notLog =
      (insertCNAME (setFails env3 (fun _ => false)) reqW 0).filter notLog)
    ∧ Effect.insert "g1" "CNAME" ["w"] ∈ sinkWrites env3 "CNAME" ["w"] "m"
    ∧ Effect.insert "g2" "CNAME" ["w"] ∈ sinkWrites env3 "CNAME" ["w"] "m"
    ∧ Effect.insert "g3" "CNAME" ["w"] ∈ sinkWrites env3 "CNAME" ["w"] "m" :=
  ⟨(claim_c7_sink_isolation env3 (fun s => s == "g2") (fun _ => false) reqW
      ⟨0, "", "", "", "", ""⟩ 0).1,
    (claim_c7_sink_isolation env3 (fun s => s == "g2") (fun _ => false) reqW
      ⟨0, "", "", "", "", ""⟩ 0).2.2.2.2.2.2.2.2 "CNAME" ["w"] "m" ⟨"g1", false⟩ (by decide),
    (claim_c7_sink_isolation env3 (fun s => s == "g2") (fun _ => false) reqW
      ⟨0, "", "", "", "", ""⟩ 0).2.2.2.2.2.2.2.2 "CNAME" ["w"] "m" ⟨"g2", false⟩ (by decide),
    (claim_c7_sink_isolation env3 (fun s => s == "g2") (fun _ => false) reqW
      ⟨0, "", "", "", "", ""⟩ 0).2.2.2.2.2.2.2.2 "CNAME" ["w"] "m" ⟨"g3", false⟩ (by decide)⟩

/-- Characterization of the NS handler when every validation passes. -/
theorem insertNS_pos (env : Env) (req : DNSRequest) (i : Nat) (d : String)
    (hcb : env.hasCfg ∧ env.hasBus)
    (ht : (splitComma (req.records.getD i emptyRecord).data).getLastD "" ≠ "")
    (he : env.etldPlusOne ((splitComma (req.records.getD i emptyRecord).data).getLastD "") =
      some d)
    (hd : strLower d ≠ "") :
    insertNS env req i =
      sinkWrites env "NS"
          [req.name, (splitComma (req.records.getD i emptyRecord).data).getLastD "",
            req.source, req.tag, env.uuid]
          "failed to insert NS record"
        ++ (if (splitComma (req.records.getD i emptyRecord).data).getLastD "" ≠ strLower d then
              [Effect.nameEvent ((splitComma (req.records.getD i emptyRecord).data).getLastD "")
                (strLower d) tagDNS "DNS"]
            else [])
        ++ [Effect.heartbeat] := by
  rw [insertNS, if_pos hcb]
  dsimp only
  rw [if_neg ht, he]
  dsimp only
  rw [if_neg hd]

/-- The NS handler emits nothing when its target is empty or no
registrable domain can be derived for it. -/
theorem insertNS_neg (env : Env) (req : DNSRequest) (i : Nat)
    (h : (splitComma (req.records.getD i emptyRecord).data).getLastD "" = ""
      ∨ env.etldPlusOne ((splitComma (req.records.getD i emptyRecord).data).getLastD "") = none
      ∨ ∃ d, env.etldPlusOne ((splitComma (req.records.getD i emptyRecord).data).getLastD "") =
          some d ∧ strLower d = "") :
    insertNS env req i = [] := by
  rw [insertNS]
  split
  · dsimp only
    rcases h with h1 | h2 | ⟨d, h3, h4⟩
    · rw [if_pos h1]
    · by_cases h1 : (splitComma (req.records.getD i emptyRecord).data).getLastD "" = ""
      · rw [if_pos h1]
      · rw [if_neg h1, h2]
    · by_cases h1 : (splitComma (req.records.getD i emptyRecord).data).getLastD "" = ""
      · rw [if_pos h1]
      · rw [if_neg h1, h3]
        dsimp only
        rw [if_pos h4]
  · rfl

/-- Characterization of the MX handler when every validation passes. -/
theorem insertMX_pos (env : Env) (req : DNSRequest) (i : Nat) (d : String)
    (hcb : env.hasCfg ∧ env.hasBus)
    (ht : removeLastDot (req.records.getD i emptyRecord).data ≠ "")
    (he : env.etldPlusOne (removeLastDot (req.records.getD i emptyRecord).data) = some d)
    (hd : strLower d ≠ "") :
    insertMX env req i =
      sinkWrites env "MX"
          [req.name, removeLastDot (req.records.getD i emptyRecord).data,
            req.source, req.tag, env.uuid]
          "failed to insert MX record"
        ++ (if removeLastDot (req.records.getD i emptyRecord).data ≠ strLower d then
              [Effect.nameEvent (removeLastDot (req.records.getD i emptyRecord).data)
                (strLower d) tagDNS "DNS"]
            else [])
        ++ [Effect.heartbeat] := by
  rw [insertMX, if_pos hcb]
  dsimp only
  rw [if_neg ht, he]
  dsimp only
  rw [if_neg hd]

/-- The MX handler emits nothing when its target is empty or no
registrable domain can be derived for it. -/
theorem insertMX_neg (env : Env) (req : DNSRequest) (i : Nat)
    (h : removeLastDot (req.records.getD i emptyRecord).data = ""
      ∨ env.etldPlusOne (removeLastDot (req.records.getD i emptyRecord).data) = none
      ∨ ∃ d, env.etldPlusOne (removeLastDot (req.records.getD i emptyRecord).data) =
          some d ∧ strLower d = "") :
    insertMX env req i = [] := by
  rw [insertMX]
  split
  · dsimp only
    rcases h with h1 | h2 | ⟨d, h3, h4⟩
    · rw [if_pos h1]
    · by_cases h1 : removeLastDot (req.records.getD i emptyRecord).data = ""
      · rw [if_pos h1]
      · rw [if_neg h1, h2]
    · by_cases h1 : removeLastDot (req.records.getD i emptyRecord).data = ""
      · rw [if_pos h1]
      · rw [if_neg h1, h3]
        dsimp only
        rw [if_pos h4]
  · rfl

/-- Membership of a conditional follow-up name event in a handler's
fan-out-plus-events output: present exactly when its guard holds. -/
theorem nameEvent_mem_fanout (env : Env) (kind : String) (args : List String)
    (msg : String) (n d2 t s : String) (c : Prop) [Decidable c] :
    (Effect.nameEvent n d2 t s ∈
      sinkWrites env kind args msg
        ++ (if c then [Effect.nameEvent n d2 t s] else []) ++ [Effect.heartbeat]) ↔ c := by
  constructor
  · intro h
    rcases List.mem_append.mp h with h12 | h3
    · rcases List.mem_append.mp h12 with h1 | h2
      · rcases sinkWrites_shape h1 with ⟨g, _, hx⟩ | ⟨m2, hx⟩ <;> exact Effect.noConfusion hx
      · by_cases hc : c
        · exact hc
        · rw [if_neg hc] at h2
          exact absurd h2 (List.not_mem_nil _)
    · exact Effect.noConfusion (List.mem_singleton.mp h3)
  · intro hc
    exact List.mem_append.mpr (Or.inl (List.mem_append.mpr (Or.inr
      (by rw [if_pos hc]; exact List.mem_singleton_self _))))

/-- Every configured sink's insert attempt appears in a fan-out followed
by anything. -/
theorem insert_mem_fanout (env : Env) (kind : String) (args : List String)
    (msg : String) (g : Sink) (hg : g ∈ env.sinks) (rest : List Effect) :
    Effect.insert g.id kind args ∈ sinkWrites env kind args msg ++ rest :=
  List.mem_append.mpr (Or.inl (List.mem_flatMap.mpr ⟨g, hg, List.mem_cons_self _ _⟩))

/-- C8: the NS handler's target is the last field of the record data split
on `,`; both NS and MX write the fact and then publish the target on the
new-name topic exactly when the target differs from its computed
registrable domain; and when the target is empty or its registrable domain
cannot be derived (or lower-cases to empty), nothing is written and
nothing is emitted. -/
theorem claim_c8_ns_mx_handlers (env : Env) (req : DNSRequest) (i : Nat) (d : String)
    (hcb : env.hasCfg ∧ env.hasBus) :
    (((splitComma (req.records.getD i emptyRecord).data).getLastD "" = ""
        ∨ env.etldPlusOne ((splitComma (req.records.getD i emptyRecord).data).getLastD "") = none
        ∨ (∃ d2, env.etldPlusOne
              ((splitComma (req.records.getD i emptyRecord).data).getLastD "") = some d2
            ∧ strLower d2 = ""))
      → insertNS env req i = [])
    ∧ ((splitComma (req.records.getD i emptyRecord).data).getLastD "" ≠ ""
      → env.etldPlusOne ((splitComma (req.records.getD i emptyRecord).data).getLastD "") = some d
      → strLower d ≠ ""
      → (∀ g ∈ env.sinks, Effect.insert g.id "NS"
            [req.name, (splitComma (req.records.getD i emptyRecord).data).getLastD "",
              req.source, req.tag, env.uuid] ∈ insertNS env req i)
        ∧ (Effect.nameEvent ((splitComma (req.records.getD i emptyRecord).data).getLastD "")
              (strLower d) tagDNS "DNS" ∈ insertNS env req i
            ↔ (splitComma (req.records.getD i emptyRecord).data).getLastD "" ≠ strLower d))
    ∧ ((removeLastDot (req.records.getD i emptyRecord).data = ""
        ∨ env.etldPlusOne (removeLastDot (req.records.getD i emptyRecord).data) = none
        ∨ (∃ d2, env.etldPlusOne (removeLastDot (req.records.getD i emptyRecord).data) = some d2
            ∧ strLower d2 = ""))
      → insertMX env req i = [])
    ∧ (removeLastDot (req.records.getD i emptyRecord).data ≠ ""
      → env.etldPlusOne (removeLastDot (req.records.getD i emptyRecord).data) = some d
      → strLower d ≠ ""
      → (∀ g ∈ env.sinks, Effect.insert g.id "MX"
            [req.name, removeLastDot (req.records.getD i emptyRecord).data,
              req.source, req.tag, env.uuid] ∈ insertMX env req i)
        ∧ (Effect.nameEvent (removeLastDot (req.records.getD i emptyRecord).data)
              (strLower d) tagDNS "DNS" ∈ insertMX env req i
            ↔ removeLastDot (req.records.getD i emptyRecord).data ≠ strLower d)) := by
  refine ⟨insertNS_neg env req i, fun ht he hd => ?_, insertMX_neg env req i,
    fun ht he hd => ?_⟩
  · rw [insertNS_pos env req i d hcb ht he hd]
    constructor
    · intro g hg
      rw [List.append_assoc]
      exact insert_mem_fanout env "NS" _ _ g hg _
    · exact nameEvent_mem_fanout env "NS" _ _ _ _ _ _ _
  · rw [insertMX_pos env req i d hcb ht he hd]
    constructor
    · intro g hg
      rw [List.append_assoc]
      exact insert_mem_fanout env "MX" _ _ g hg _
    · exact nameEvent_mem_fanout env "MX" _ _ _ _ _ _ _

/-- Concrete environment for the NS/MX witness. -/
def envNS : Env :=
  { hasCfg := true, hasBus := true, uuid := "uuid-5",
    whichDomain := fun _ => "", isDomainInScope := fun _ => false,
    etldPlusOne := fun _ => some "example.net",
    ipMatches := fun _ => [], subMatches := fun _ => [], sinks := [⟨"g1", false⟩] }

/-- Concrete NS answer whose record data carries a `ttl,host` pair. -/
def reqNS : DNSRequest :=
  { name := "example.com", domain := "example.com", tag := "dns", source := "DNS",
    records := [⟨"example.com", typeNS, "3600,ns1.example.net"⟩] }

/-- Witness for C8: the NS fact for the last comma-field is written to the
configured sink, the follow-up name event is present because the target
differs from its domain, and an MX record whose domain is underivable
produces nothing. -/
theorem claim_c8_witness :
    Effect.insert "g1" "NS"
        [reqNS.name, (splitComma (reqNS.records.getD 0 emptyRecord).data).getLastD "",
          reqNS.source, reqNS.tag, envNS.uuid] ∈ insertNS envNS reqNS 0
    ∧ (Effect.nameEvent ((splitComma (reqNS.records.getD 0 emptyRecord).data).getLastD "")
        (strLower "example.net") tagDNS "DNS" ∈ insertNS envNS reqNS 0)
    ∧ insertMX envPTR reqNS 0 = [] := by
  have h := claim_c8_ns_mx_handlers envNS reqNS 0 "example.net" (by decide)
  have hpos := h.2.1 (by decide) rfl (by decide)
  have h2 := claim_c8_ns_mx_handlers envPTR reqNS 0 "x" (by decide)
  exact ⟨hpos.1 ⟨"g1", false⟩ (by decide), hpos.2.mpr (by decide),
    h2.2.2.1 (Or.inr (Or.inl rfl))⟩

/-- Result of the Go context lookup for one dependency key: the key can
be genuinely absent from the context, present but holding a typed nil
pointer, or present with a live pointer. -/
inductive CtxVal where
  | absent
  | nilPtr
  | ptr
deriving DecidableEq

/-- Go semantics of the non-comma-ok type assertion `ctx.Value(key).(*T)`
performed at the top of every entry point (datamgmtsrv.go:42, 79,
127-128, 147-148 and likewise in the remaining handlers): when the key
is absent, `ctx.Value` yields an untyped nil and the assertion panics
(`none`); otherwise it yields the stored pointer, and the subsequent
`== nil` guard sees whether it is live (`some true`) or nil
(`some false`). -/
def assertCtx : CtxVal → Option Bool
  | CtxVal.absent => none
  | CtxVal.nilPtr => some false
  | CtxVal.ptr => some true

/-- Entry of `OnDNSRequest` (datamgmtsrv.go:41-45) with the context
lookup made explicit: `none` models the assertion's run-time panic
escaping the function, `some effects` a normal return; the surviving
path is the `onDNSRequest` model with `hasBus` recording whether the
asserted pointer was live. -/
def onDNSRequestCtx (busVal : CtxVal) (env : Env) (sched : List Bool)
    (req : DNSRequest) : Option (List Effect) :=
  match assertCtx busVal with
  | none => none
  | some b => some (onDNSRequest { env with hasBus := b } sched req)

/-- Entry of `insertCNAME` (datamgmtsrv.go:147-151) with both context
lookups explicit: the config assertion runs first, then the bus
assertion; either key's absence panics before the nil guard runs. -/
def insertCNAMECtx (cfgVal busVal : CtxVal) (env : Env) (req : DNSRequest)
    (recidx : Nat) : Option (List Effect) :=
  match assertCtx cfgVal with
  | none => none
  | some c =>
    match assertCtx busVal with
    | none => none
    | some b => some (insertCNAME { env with hasCfg := c, hasBus := b } req recidx)

/-- Entry of `OnASNRequest` (datamgmtsrv.go:122-131) with the context
lookups explicit; the empty-field check precedes them in the source. -/
def onASNRequestCtx (cfgVal busVal : CtxVal) (env : Env) (areq : ASNRequest) :
    Option (List Effect) :=
  if areq.address = "" ∨ areq.prefixVal = "" ∨ areq.description = "" then some []
  else
    match assertCtx cfgVal with
    | none => none
    | some c =>
      match assertCtx busVal with
      | none => none
      | some b => some (onASNRequest { env with hasCfg := c, hasBus := b } areq)

/-- C5 (code bug): when a dependency key is genuinely absent from the
invocation context, the entry points do not return silently: the
non-comma-ok type assertion panics (`none`, an error fatal to the
process) before the nil guard can run, contradicting the claim and the
spec's no-fatal-error design; the silent empty return the claim
describes is reached only when the context carries a present but nil
pointer (`CtxVal.nilPtr`). -/
theorem claim_c5_panic_on_absent :
    onDNSRequestCtx CtxVal.absent envW [true] reqW = none
    ∧ insertCNAMECtx CtxVal.absent CtxVal.ptr envW reqW 0 = none
    ∧ insertCNAMECtx CtxVal.ptr CtxVal.absent envW reqW 0 = none
    ∧ onASNRequestCtx CtxVal.absent CtxVal.ptr envW
        ⟨64496, "desc", "192.0.2.1", "192.0.2.0/24", "s", "t"⟩ = none
    ∧ onDNSRequestCtx CtxVal.nilPtr envW [true] reqW = some []
    ∧ insertCNAMECtx CtxVal.nilPtr CtxVal.nilPtr envW reqW 0 = some [] :=
  ⟨rfl, rfl, rfl, rfl, by decide, by decide⟩
